import Mathlib

/-!
Shallow embedding of `src/tools/push_csv_to_gsheet.py`, a utility that pushes
a CSV file into a tab of a remote spreadsheet, either replacing the tab's
contents or appending while reconciling the header row.

Cells are strings; a row is a list of cells; a tab is a list of rows.  The
remote spreadsheet client is modelled by an `Op` type whose constructors are
the write operations the script issues (`clear`, `update`, `append_row`,
`update "A1"`, `insert_row(..., 1)`, `append_rows`), together with an
interpreter `applyOp` giving each operation its effect on the tab contents.
`mainRun` models the control flow of `main()` including the order of the
credential check, the CSV read, and the remote calls, recorded as a trace of
events.
-/

namespace PushCsv

abbrev Row := List String
abbrev Tab := List Row

/-- Python `str.strip()`: remove leading and trailing whitespace characters. -/
def pyStrip (s : String) : String :=
  String.mk (((s.data.dropWhile Char.isWhitespace).reverse.dropWhile
    Char.isWhitespace).reverse)

/-- `norm_row` from the script: `r2 = [c.strip() for c in r]` followed by
`while r2 and r2[-1] == "": r2.pop()` — strip every cell, then pop trailing
empty cells from the end (encoded as reverse / dropWhile / reverse). -/
def norm_row (r : Row) : Row :=
  (((r.map pyStrip).reverse).dropWhile (fun c => c = "")).reverse

/-- `all(c.strip() == "" for c in first)` from line 84 of the script. -/
def isBlankRow (r : Row) : Bool :=
  r.all (fun c => pyStrip c = "")

/-- The write operations the script can issue against the remote tab. -/
inductive Op where
  /-- `ws.clear()` -/
  | clear : Op
  /-- `ws.update(block)` — write a block of rows starting at the first cell. -/
  | updateAll : Tab → Op
  /-- `ws.append_row(r)` -/
  | appendRow : Row → Op
  /-- `ws.update("A1", [r])` — range update starting at the tab's first cell. -/
  | updateA1 : Row → Op
  /-- `ws.insert_row(r, 1)` — insert as a new row 1, pushing rows down. -/
  | insertRowAt1 : Row → Op
  /-- `ws.append_rows(rs, value_input_option="RAW")` -/
  | appendRows : Tab → Op
deriving DecidableEq

/-- A range write over one existing row: the new cells overwrite the first
`new.length` cells of the old row; cells past the written range survive. -/
def writeCells (old new : Row) : Row :=
  new ++ old.drop new.length

/-- A block write starting at the first row: each written row overwrites the
corresponding existing row cell-by-cell; rows past the block survive, and
rows written past the end of the existing contents are added. -/
def overwriteRows : Tab → Tab → Tab
  | tab, [] => tab
  | [], news => news
  | o :: os, n :: ns => writeCells o n :: overwriteRows os ns

/-- Effect of one remote write operation on the tab contents. -/
def applyOp (tab : Tab) : Op → Tab
  | Op.clear => []
  | Op.updateAll block => overwriteRows tab block
  | Op.appendRow r => tab ++ [r]
  | Op.updateA1 r => overwriteRows tab [r]
  | Op.insertRowAt1 r => r :: tab
  | Op.appendRows rs => tab ++ rs

/-- Effect of a sequence of remote write operations, first to last. -/
def applyOps (tab : Tab) (ops : List Op) : Tab :=
  ops.foldl applyOp tab

/-- `read_csv` from the script, over the parsed rows of the file: an empty
file yields `([], [])`; otherwise the first row is the header and the rest
are the data rows. -/
def read_csv (rows : Tab) : Row × Tab :=
  match rows with
  | [] => ([], [])
  | h :: t => (h, t)

/-- The header-reconciliation decision of append mode (lines 74-91): on an
empty tab append the header; otherwise compare the normalized first row with
the normalized header, then test the first row for blankness, then fall back
to inserting the header at row 1. -/
def appendHeaderOps (header : Row) (existing : Tab) : List Op :=
  match existing with
  | [] => [Op.appendRow header]
  | first :: _ =>
    if norm_row first = norm_row header then []
    else if isBlankRow first then [Op.updateA1 header]
    else [Op.insertRowAt1 header]

/-- The data phase of append mode (lines 93-97): append all data rows when
there are any, otherwise do nothing. -/
def appendDataOps (data : Tab) : List Op :=
  if data = [] then [] else [Op.appendRows data]

/-- All remote writes issued by one append-mode run. -/
def appendOps (header : Row) (data : Tab) (existing : Tab) : List Op :=
  appendHeaderOps header existing ++ appendDataOps data

/-- All remote writes issued by one replace-mode run (lines 56-60):
`ws.clear()` then `ws.update([header] + data)`. -/
def replaceOps (header : Row) (data : Tab) : List Op :=
  [Op.clear, Op.updateAll (header :: data)]

/-- Final tab contents after one append-mode run against tab `t`. -/
def appendRun (header : Row) (data : Tab) (t : Tab) : Tab :=
  applyOps t (appendOps header data t)

/-- Final tab contents after one replace-mode run against tab `t`. -/
def replaceRun (header : Row) (data : Tab) (t : Tab) : Tab :=
  applyOps t (replaceOps header data)

/-- The tab contents after only the header phase of an append-mode run. -/
def headerApply (header : Row) (t : Tab) : Tab :=
  applyOps t (appendHeaderOps header t)

/-- Observable steps of `main()`, in execution order. -/
inductive Event where
  /-- `read_csv(args.csv)` -/
  | readCsv : Event
  /-- the `GOOGLE_SERVICE_ACCOUNT_JSON` check in `get_gspread_client` -/
  | credCheck : Event
  /-- `gc.open_by_key(args.sheet_id)` -/
  | openSheet : Event
  /-- `get_or_create_worksheet(sh, args.tab, ...)` -/
  | getWorksheet : Event
  /-- `ws.get_all_values()` -/
  | getAllValues : Event
  /-- a remote write operation -/
  | remote : Op → Event
deriving DecidableEq

/-- The process environment, as far as the script reads it. -/
structure Env where
  googleServiceAccountJson : Option String

/-- `if not sa_json` from `get_gspread_client`: the credential is present
only when the variable is set to a non-empty string (Python falsiness). -/
def credPresent (env : Env) : Bool :=
  match env.googleServiceAccountJson with
  | none => false
  | some s => !(s == "")

/-- The `--mode` flag. -/
inductive Mode where
  | replace : Mode
  | append : Mode
deriving DecidableEq

/-- `main()` (lines 39-99): read the CSV, short-circuit when the header list
is empty, check the credential, open the sheet and worksheet, then run the
selected mode.  Returns the trace of events in execution order together with
the outcome: `Except.ok 0` for a normal return, `Except.error` for the
`RuntimeError` that terminates the process with a nonzero status. -/
def mainRun (mode : Mode) (csvRows : Tab) (env : Env) (existing : Tab) :
    List Event × Except String Nat :=
  let header := (read_csv csvRows).1
  let data := (read_csv csvRows).2
  if header = [] then
    ([Event.readCsv], Except.ok 0)
  else if credPresent env then
    let pre := [Event.readCsv, Event.credCheck, Event.openSheet,
      Event.getWorksheet]
    match mode with
    | Mode.replace =>
        (pre ++ (replaceOps header data).map Event.remote, Except.ok 0)
    | Mode.append =>
        (pre ++ Event.getAllValues ::
          (appendOps header data existing).map Event.remote, Except.ok 0)
  else
    ([Event.readCsv, Event.credCheck],
      Except.error "Missing env var GOOGLE_SERVICE_ACCOUNT_JSON")

/-- Modelled from the spec (§4.2 step 2): trim every cell, then drop trailing
empty cells — "trailing-empty trimming, not internal" — written as direct
structural recursion for comparison with the script's `norm_row`. -/
def dropTrailingEmptySpec : List String → List String
  | [] => []
  | c :: cs =>
    match dropTrailingEmptySpec cs with
    | [] => if c = "" then [] else [c]
    | r => c :: r

/-- Modelled from the spec (§4.2 step 2): the whole normalization contract,
trim then drop trailing empties. -/
def normRowSpec (r : Row) : Row :=
  dropTrailingEmptySpec (r.map pyStrip)

/-! Helper lemmas shared by the claim theorems. -/

lemma overwriteRows_nil_right (t : Tab) : overwriteRows t [] = t := by
  cases t <;> rfl

lemma overwriteRows_nil_left (news : Tab) : overwriteRows [] news = news := by
  cases news <;> rfl

lemma overwriteRows_cons_cons (o n : Row) (os ns : Tab) :
    overwriteRows (o :: os) (n :: ns) = writeCells o n :: overwriteRows os ns := by
  rfl

lemma applyOps_append (t : Tab) (a b : List Op) :
    applyOps t (a ++ b) = applyOps (applyOps t a) b :=
  List.foldl_append ..

lemma appendHeaderOps_cons (h first : Row) (rest : Tab) :
    appendHeaderOps h (first :: rest) =
      if norm_row first = norm_row h then []
      else if isBlankRow first = true then [Op.updateA1 h]
      else [Op.insertRowAt1 h] := rfl

lemma dropTrailingEmptySpec_cons (c : String) (cs : List String) :
    dropTrailingEmptySpec (c :: cs) =
      match dropTrailingEmptySpec cs with
      | [] => if c = "" then [] else [c]
      | r => c :: r := rfl

lemma appendRun_of_ne (h : Row) (d t : Tab) (hd : d ≠ []) :
    appendRun h d t = headerApply h t ++ d := by
  unfold appendRun appendOps
  rw [applyOps_append]
  unfold appendDataOps
  rw [if_neg hd]
  rfl

lemma appendRun_nil_data (h : Row) (t : Tab) :
    appendRun h [] t = headerApply h t := by
  unfold appendRun appendOps appendDataOps headerApply
  simp

lemma headerApply_nil (h : Row) : headerApply h [] = [h] := rfl

lemma headerApply_cons_cases (h x : Row) (xs : Tab) :
    headerApply h (x :: xs) = x :: xs ∨
    headerApply h (x :: xs) = writeCells x h :: xs ∨
    headerApply h (x :: xs) = h :: x :: xs := by
  unfold headerApply
  rw [appendHeaderOps_cons]
  by_cases h1 : norm_row x = norm_row h
  · left
    rw [if_pos h1]
    rfl
  · by_cases h2 : isBlankRow x = true
    · right; left
      rw [if_neg h1, if_pos h2]
      show overwriteRows (x :: xs) [h] = writeCells x h :: xs
      rw [overwriteRows_cons_cons, overwriteRows_nil_right]
    · right; right
      rw [if_neg h1, if_neg h2]
      rfl

lemma headerApply_ne_nil (h : Row) (t : Tab) : headerApply h t ≠ [] := by
  cases t with
  | nil => simp [headerApply_nil]
  | cons x xs =>
    rcases headerApply_cons_cases h x xs with h1 | h1 | h1 <;> simp [h1]

lemma headerApply_cons_tail (h x : Row) (xs : Tab) :
    ∃ q, headerApply h (x :: xs) = q ++ xs := by
  rcases headerApply_cons_cases h x xs with h1 | h1 | h1
  · exact ⟨[x], by simp [h1]⟩
  · exact ⟨[writeCells x h], by simp [h1]⟩
  · exact ⟨[h, x], by simp [h1]⟩

lemma replaceRun_eq (h : Row) (d t : Tab) : replaceRun h d t = h :: d := by
  unfold replaceRun replaceOps applyOps
  simp [applyOp, overwriteRows_nil_left]

lemma dropTrailingEmptySpec_eq (l : List String) :
    (List.dropWhile (fun c => c = "") l.reverse).reverse =
      dropTrailingEmptySpec l := by
  induction l with
  | nil => rfl
  | cons c cs ih =>
    rw [List.reverse_cons, List.dropWhile_append]
    by_cases hnil : List.dropWhile (fun c => c = "") cs.reverse = []
    · rw [hnil] at ih
      simp only [hnil, List.isEmpty_nil, if_true]
      rw [dropTrailingEmptySpec_cons, ← ih]
      simp only [List.reverse_nil]
      by_cases hc : c = "" <;> simp [List.dropWhile, hc]
    · have hne : dropTrailingEmptySpec cs ≠ [] := by
        rw [← ih]
        simpa using hnil
      obtain ⟨y, ys, hys⟩ := List.exists_cons_of_ne_nil hne
      have hemp : (List.dropWhile (fun c => c = "") cs.reverse).isEmpty = false := by
        simpa using hnil
      rw [dropTrailingEmptySpec_cons, hys, hemp]
      simp only [Bool.false_eq_true, if_false, List.reverse_append,
        List.reverse_cons, List.reverse_nil, List.nil_append,
        List.singleton_append]
      rw [ih, hys]

lemma norm_row_eq_spec (r : Row) : norm_row r = normRowSpec r := by
  unfold norm_row normRowSpec
  exact dropTrailingEmptySpec_eq (r.map pyStrip)

/-! Claim theorems. -/

/-- C1: in append mode, when the existing first row neither
normalization-matches the new header nor is all-blank, the only header
operation issued is `insert_row(header, 1)`, after which the header is a
brand-new row 1 and every existing row is pushed down one position — row 1
is never overwritten in place. -/
theorem C1_nonmatching_nonblank_first_row_inserts_header
    (header first : Row) (rest : Tab)
    (hne : norm_row first ≠ norm_row header)
    (hnb : isBlankRow first = false) :
    appendHeaderOps header (first :: rest) = [Op.insertRowAt1 header] ∧
    headerApply header (first :: rest) = header :: first :: rest := by
  have hops : appendHeaderOps header (first :: rest) = [Op.insertRowAt1 header] := by
    rw [appendHeaderOps_cons, if_neg hne, if_neg (by simp [hnb])]
  refine ⟨hops, ?_⟩
  unfold headerApply
  rw [hops]
  rfl

/-- C1 witness at header `["id","name"]`, existing first row `["x","y"]`. -/
theorem C1_nonmatching_nonblank_first_row_inserts_header_witness :
    norm_row ["x", "y"] ≠ norm_row ["id", "name"] ∧
    isBlankRow ["x", "y"] = false ∧
    (appendHeaderOps ["id", "name"] [["x", "y"]] =
        [Op.insertRowAt1 ["id", "name"]] ∧
      headerApply ["id", "name"] [["x", "y"]] = [["id", "name"], ["x", "y"]]) :=
  ⟨by decide, by decide,
    C1_nonmatching_nonblank_first_row_inserts_header
      ["id", "name"] ["x", "y"] [] (by decide) (by decide)⟩

/-- C2: the script's `norm_row` agrees with the spec's normalization contract
(trim every cell, then drop trailing — not internal — empty cells), rows are
compared by equality of their normalized sequences, and for header
`["a","b",""]` against existing first row `["a","b"]` the equality branch
fires: no header-mutating operation is issued. -/
theorem C2_norm_row_matches_spec_and_trailing_empty_header_is_noop
    (r : Row) (rest : Tab) :
    norm_row r = normRowSpec r ∧
    appendHeaderOps ["a", "b", ""] (["a", "b"] :: rest) = [] := by
  refine ⟨norm_row_eq_spec r, ?_⟩
  rw [appendHeaderOps_cons,
    if_pos (by decide : norm_row ["a", "b"] = norm_row ["a", "b", ""])]

/-- C3: in append mode, when the existing first row does not
normalization-match the header but every cell is blank under
`cell.strip() == ""`, the only header operation issued is a range update at
the tab's first cell (`ws.update("A1", [header])`), which overwrites row 1
in place; the row count is unchanged, so no new row is inserted. -/
theorem C3_blank_first_row_overwritten_in_place
    (header first : Row) (rest : Tab)
    (hne : norm_row first ≠ norm_row header)
    (hb : isBlankRow first = true) :
    appendHeaderOps header (first :: rest) = [Op.updateA1 header] ∧
    headerApply header (first :: rest) = writeCells first header :: rest ∧
    (headerApply header (first :: rest)).length = (first :: rest).length := by
  have hops : appendHeaderOps header (first :: rest) = [Op.updateA1 header] := by
    rw [appendHeaderOps_cons, if_neg hne, if_pos hb]
  have happ : headerApply header (first :: rest) = writeCells first header :: rest := by
    unfold headerApply
    rw [hops]
    show overwriteRows (first :: rest) [header] = writeCells first header :: rest
    rw [overwriteRows_cons_cons, overwriteRows_nil_right]
  exact ⟨hops, happ, by rw [happ]; rfl⟩

/-- C3 witness at header `["id","name"]`, existing first row `["","",""]`. -/
theorem C3_blank_first_row_overwritten_in_place_witness :
    norm_row ["", "", ""] ≠ norm_row ["id", "name"] ∧
    isBlankRow ["", "", ""] = true ∧
    (appendHeaderOps ["id", "name"] [["", "", ""]] = [Op.updateA1 ["id", "name"]] ∧
      headerApply ["id", "name"] [["", "", ""]] =
        writeCells ["", "", ""] ["id", "name"] :: [] ∧
      (headerApply ["id", "name"] [["", "", ""]]).length =
        ([["", "", ""]] : Tab).length) :=
  ⟨by decide, by decide,
    C3_blank_first_row_overwritten_in_place
      ["id", "name"] ["", "", ""] [] (by decide) (by decide)⟩

/-- C4: in append mode, when the fetched tab has no rows at all, the header
phase issues exactly `append_row(header)` — leaving the tab as `[header]` —
and the full operation list is that append followed only by the optional
data append: no overwrite (`updateA1`) and no insert (`insertRowAt1`). -/
theorem C4_empty_tab_appends_header (header : Row) (data : Tab) :
    appendHeaderOps header [] = [Op.appendRow header] ∧
    headerApply header [] = [header] ∧
    appendOps header data [] =
      Op.appendRow header ::
        (if data = [] then [] else [Op.appendRows data]) := by
  refine ⟨rfl, rfl, ?_⟩
  unfold appendOps appendHeaderOps appendDataOps
  rfl

/-- C5: in append mode, whatever the header phase did, a non-empty list of
data rows is appended unchanged and in order to the end of the tab, and an
empty list of data rows causes no append operation at all. -/
theorem C5_data_rows_appended_after_header_phase (header : Row) (data t : Tab) :
    (data ≠ [] → appendRun header data t = headerApply header t ++ data) ∧
    (data = [] → appendRun header data t = headerApply header t ∧
      appendOps header data t = appendHeaderOps header t) := by
  constructor
  · intro hd
    exact appendRun_of_ne header data t hd
  · intro hd
    subst hd
    refine ⟨appendRun_nil_data header t, ?_⟩
    unfold appendOps appendDataOps
    simp

/-- C5 witness at header `["h"]`, data `[["1"]]` (and `[]`), tab `[["x"]]`. -/
theorem C5_data_rows_appended_after_header_phase_witness :
    appendRun ["h"] [["1"]] [["x"]] = headerApply ["h"] [["x"]] ++ [["1"]] ∧
    (appendRun ["h"] [] [["x"]] = headerApply ["h"] [["x"]] ∧
      appendOps ["h"] [] [["x"]] = appendHeaderOps ["h"] [["x"]]) :=
  ⟨(C5_data_rows_appended_after_header_phase ["h"] [["1"]] [["x"]]).1 (by decide),
    (C5_data_rows_appended_after_header_phase ["h"] [] [["x"]]).2 rfl⟩

/-- C6: replace mode clears the tab and writes header plus data as one block
from the first cell, so the final contents are `header :: data` whatever the
prior contents were (no inspection of them), and running replace mode twice
with the same input leaves the same final contents as one run. -/
theorem C6_replace_mode_overwrites_and_is_idempotent (header : Row) (data t : Tab) :
    replaceRun header data t = header :: data ∧
    replaceRun header data (replaceRun header data t) =
      replaceRun header data t := by
  refine ⟨replaceRun_eq header data t, ?_⟩
  rw [replaceRun_eq, replaceRun_eq]

/-- C7: append mode never deduplicates: running it twice with the same
non-empty data against any starting tab leaves a tab ending in two copies of
the data rows, back to back. -/
theorem C7_append_mode_duplicates_data (header : Row) (data t : Tab)
    (hd : data ≠ []) :
    ∃ p, appendRun header data (appendRun header data t) =
      p ++ (data ++ data) := by
  have h1 : appendRun header data t = headerApply header t ++ data :=
    appendRun_of_ne header data t hd
  obtain ⟨x, xs, hx⟩ := List.exists_cons_of_ne_nil (headerApply_ne_nil header t)
  obtain ⟨q, hq⟩ := headerApply_cons_tail header x (xs ++ data)
  refine ⟨q ++ xs, ?_⟩
  rw [appendRun_of_ne header data _ hd, h1, hx, List.cons_append, hq]
  simp [List.append_assoc]

/-- C7 witness: two append runs of header `["h1","h2"]`, data `[["1","2"]]`
on the empty tab. -/
theorem C7_append_mode_duplicates_data_witness :
    (([["1", "2"]] : Tab) ≠ []) ∧
    ∃ p, appendRun ["h1", "h2"] [["1", "2"]]
        (appendRun ["h1", "h2"] [["1", "2"]] []) =
      p ++ ([["1", "2"]] ++ [["1", "2"]]) :=
  ⟨by decide,
    C7_append_mode_duplicates_data ["h1", "h2"] [["1", "2"]] [] (by decide)⟩

/-- C8: a CSV that parses to zero rows short-circuits `main`: the trace holds
only the CSV read — no credential check, no sheet open, no remote call — and
the process returns 0. -/
theorem C8_empty_csv_short_circuit (mode : Mode) (env : Env) (t : Tab) :
    mainRun mode [] env t = ([Event.readCsv], Except.ok 0) := rfl

/-- C9 counterexample: with the credential variable absent, running on the
two-row CSV `[["a"],["1"]]` produces the trace
`[readCsv, credCheck]` — the CSV load comes first, so the credential check
does not precede it; and on an empty CSV the program exits 0 with no
credential check and no error at all, not a fatal configuration error. -/
theorem C9_counterexample :
    (mainRun Mode.replace [["a"], ["1"]] ⟨none⟩ []).1 =
      [Event.readCsv, Event.credCheck] ∧
    mainRun Mode.replace [] ⟨none⟩ [] = ([Event.readCsv], Except.ok 0) :=
  ⟨rfl, rfl⟩

/-- C9 (amended): when the credential variable is absent or empty and the
CSV's header row is non-empty, `main` fails with the fatal configuration
error after the CSV read but before any spreadsheet call: the trace is
exactly `[readCsv, credCheck]` and the outcome is the `RuntimeError`. -/
theorem C9_missing_credential_fails_after_csv_read (mode : Mode) (rows : Tab)
    (env : Env) (t : Tab) (hc : credPresent env = false)
    (hh : (read_csv rows).1 ≠ []) :
    mainRun mode rows env t =
      ([Event.readCsv, Event.credCheck],
        Except.error "Missing env var GOOGLE_SERVICE_ACCOUNT_JSON") := by
  unfold mainRun
  rw [if_neg hh, hc]
  rfl

/-- C9 (amended) witness at CSV `[["a"],["1"]]` and credential set to the
empty string. -/
theorem C9_missing_credential_fails_after_csv_read_witness :
    credPresent ⟨some ""⟩ = false ∧
    (read_csv [["a"], ["1"]]).1 ≠ [] ∧
    mainRun Mode.append [["a"], ["1"]] ⟨some ""⟩ [] =
      ([Event.readCsv, Event.credCheck],
        Except.error "Missing env var GOOGLE_SERVICE_ACCOUNT_JSON") :=
  ⟨rfl, by decide,
    C9_missing_credential_fails_after_csv_read Mode.append [["a"], ["1"]]
      ⟨some ""⟩ [] rfl (by decide)⟩

/-- C10: a CSV whose parsed first row is an empty row makes `read_csv`
return the empty header, and `main` takes the same empty-CSV short-circuit
as a file with no rows at all: only the CSV read happens and the process
returns 0, regardless of the remaining rows. -/
theorem C10_empty_first_row_short_circuits (mode : Mode) (rest : Tab)
    (env : Env) (t : Tab) :
    read_csv ([] :: rest) = ([], rest) ∧
    mainRun mode ([] :: rest) env t = ([Event.readCsv], Except.ok 0) ∧
    mainRun mode ([] :: rest) env t = mainRun mode [] env t :=
  ⟨rfl, rfl, rfl⟩

end PushCsv
